import Mathlib

/-!
# SoundHub server — shallow embedding and verification

A shallow embedding of the identity / like / moderation core of
`src/server.js` (an Express application backed by flat JSON files), with
theorems checking the natural-language specification against it.

Modelling conventions:
* JS strings are Lean `String`; a value that may be `null`/`undefined` is an
  `Option String`, and JS truthiness of such a value (`undefined`, `null` and
  `""` are falsy) is `truthyS`.
* JS objects used as string-keyed maps (`oauthLinks`, `USER_LIKES`, the
  session's `oauthStates`/`oauthNext`) are association lists with
  JS-object update semantics (overwrite in place, append new keys).
* JS `Set` built from an array and converted back with `Array.from`
  preserves first-insertion order; it is modelled by order-preserving
  deduplication (`listToSet`) and append-if-absent (`addToSet`).
* `new Date().toISOString()` and the random ids from `crypto.randomBytes`
  are external inputs; they are passed in as explicit `now` / fresh-id
  arguments.
* Numeric JSON fields (`plays`, `likes`) are `Option Int`; an absent field
  is `none` (the `Number.isFinite(Number _)` check fails on `undefined`).
-/

/-- JS truthiness of a nullable string: `undefined`/`null` and `""` are falsy. -/
def truthyS (s : Option String) : Bool :=
  match s with
  | none => false
  | some v => v != ""

/-- JS `a || b` on nullable strings: `a` when truthy, else `b`. -/
def jsOr (a b : Option String) : Option String :=
  if truthyS a then a else b

/-- Character-list prefix test (`chIsPref p s` ⇔ `p` is a prefix of `s`). -/
def chIsPref : List Char → List Char → Bool
  | [], _ => true
  | _ :: _, [] => false
  | c :: cs, d :: ds => c == d && chIsPref cs ds

/-- JS `s.startsWith(p)`. -/
def jsStartsWith (s p : String) : Bool :=
  chIsPref p.data s.data

/-- Whitespace characters removed by JS `String.prototype.trim`
(restricted to the ASCII ones that occur in this application's data). -/
def isWsChar (c : Char) : Bool :=
  c == ' ' || c == '\t' || c == '\n' || c == '\r'

/-- JS `s.trim()`. -/
def jsTrim (s : String) : String :=
  ⟨((s.data.dropWhile isWsChar).reverse.dropWhile isWsChar).reverse⟩

/-- JS `s.toLowerCase()` (ASCII case folding). -/
def jsToLower (s : String) : String :=
  ⟨s.data.map Char.toLower⟩

/-- JS `s.includes(c)` for a single character. -/
def jsIncludesChar (s : String) (c : Char) : Bool :=
  s.data.contains c

/-! ## Association lists with JS-object semantics -/

/-- `obj[k]`: first binding of `k`, if any. -/
def alookup {α : Type} : List (String × α) → String → Option α
  | [], _ => none
  | (k', v') :: rest, k => if k' == k then some v' else alookup rest k

/-- `obj[k] = v`: overwrite the first binding of `k` in place, else append. -/
def aset {α : Type} : List (String × α) → String → α → List (String × α)
  | [], k, v => [(k, v)]
  | (k', v') :: rest, k, v =>
      if k' == k then (k, v) :: rest else (k', v') :: aset rest k v

/-- `delete obj[k]`: drop the first binding of `k`. -/
def aerase {α : Type} : List (String × α) → String → List (String × α)
  | [], _ => []
  | (k', v') :: rest, k => if k' == k then rest else (k', v') :: aerase rest k

/-- Update the first element satisfying `q` (JS `arr.find(q)` followed by an
in-place mutation of the found object). -/
def updateFirst {α : Type} (q : α → Bool) (f : α → α) : List α → List α
  | [] => []
  | x :: xs => if q x then f x :: xs else x :: updateFirst q f xs

instance {ε α : Type} [DecidableEq ε] [DecidableEq α] :
    DecidableEq (Except ε α) := fun a b =>
  match a, b with
  | .error e, .error f =>
      if h : e = f then isTrue (by rw [h]) else isFalse (by simp [h])
  | .error _, .ok _ => isFalse (fun hh => Except.noConfusion hh)
  | .ok _, .error _ => isFalse (fun hh => Except.noConfusion hh)
  | .ok x, .ok y =>
      if h : x = y then isTrue (by rw [h]) else isFalse (by simp [h])

/-! ## Data model: users (`users.json`) and likes (`user_likes.json`) -/

/-- One `oauthLinks[provider]` record. -/
structure OauthLink where
  providerId : String
  email : Option String
  avatar : Option String
  linkedAt : Option String
  lastLoginAt : Option String
  deriving DecidableEq, Repr

/-- A record of the `users.json` array. -/
structure User where
  id : String
  provider : String
  providerId : Option String
  email : Option String
  displayName : Option String
  avatar : Option String
  role : String
  artistId : Option String
  passwordHash : Option String
  oauthLinks : List (String × OauthLink)
  createdAt : Option String
  deriving DecidableEq, Repr

/-- The persisted identity state: `USERS` and `USER_LIKES`. -/
structure Db where
  users : List User
  userLikes : List (String × List String)
  deriving DecidableEq, Repr

/-- `normalizeEmail`: `(email || '').trim().toLowerCase()`. -/
def normalizeEmail (email : Option String) : String :=
  jsToLower (jsTrim (email.getD ""))

/-- `findUserByEmailAnyProvider`. -/
def findUserByEmailAnyProvider (email : Option String) (users : List User) :
    Option User :=
  let e := normalizeEmail email
  if e == "" then none
  else users.find? (fun u => normalizeEmail u.email == e)

/-- JS `String(u.providerId)` (an absent field stringifies to `"undefined"`). -/
def pidString (o : Option String) : String :=
  o.getD "undefined"

/-- The predicate of the first `USERS.find` in `upsertOauthUser`: primary
`(provider, providerId)` match, or an `oauthLinks[provider]` match. -/
def directMatch (provider pid : String) (u : User) : Bool :=
  (u.provider == provider && pidString u.providerId == pid) ||
  (match alookup u.oauthLinks provider with
   | some l => l.providerId == pid
   | none => false)

/-- The in-place refresh of a directly matched user (path (a) of
`upsertOauthUser`). -/
def refreshDirect (provider pid : String) (email displayName avatar : Option String)
    (now : String) (u : User) : User :=
  let oldLink := (alookup u.oauthLinks provider).getD
    { providerId := pid, email := none, avatar := none,
      linkedAt := none, lastLoginAt := none }
  let link : OauthLink :=
    { providerId := pid
      email := if truthyS email then email else oldLink.email
      avatar := if truthyS avatar then avatar else oldLink.avatar
      lastLoginAt := some now
      linkedAt := if truthyS oldLink.linkedAt then oldLink.linkedAt else some now }
  { u with
    email := jsOr email u.email
    displayName := jsOr displayName u.displayName
    avatar := jsOr avatar u.avatar
    oauthLinks := aset u.oauthLinks provider link }

/-- Attaching a fresh `oauthLinks` entry to an email-matched user and
enriching its empty profile fields (path (b) of `upsertOauthUser`). -/
def attachByEmail (provider pid : String) (email displayName avatar : Option String)
    (now : String) (u : User) : User :=
  let link : OauthLink :=
    { providerId := pid
      email := jsOr email (jsOr u.email none)
      avatar := jsOr avatar (jsOr u.avatar none)
      linkedAt := some now
      lastLoginAt := some now }
  { u with
    oauthLinks := aset u.oauthLinks provider link
    email := jsOr u.email (jsOr email none)
    displayName := jsOr u.displayName (jsOr displayName u.displayName)
    avatar := jsOr u.avatar (jsOr avatar u.avatar) }

/-- The freshly created user of path (c) of `upsertOauthUser`. -/
def newOauthUser (provider pid : String) (email displayName avatar : Option String)
    (now fid : String) : User :=
  { id := fid
    provider := provider
    providerId := some pid
    email := jsOr email none
    displayName := jsOr displayName (some "User")
    avatar := jsOr avatar none
    role := "user"
    artistId := none
    passwordHash := none
    oauthLinks := [(provider,
      { providerId := pid
        email := jsOr email none
        avatar := jsOr avatar none
        linkedAt := some now
        lastLoginAt := some now })]
    createdAt := some now }

/-- `USER_LIKES[id] = USER_LIKES[id] || []`. -/
def ensureLikes (likes : List (String × List String)) (uid : String) :
    List (String × List String) :=
  match alookup likes uid with
  | some _ => likes
  | none => aset likes uid []

/-- `upsertOauthUser` (`src/server.js:159-238`); `now` stands for
`new Date().toISOString()` and `fid` for the fresh random user id. -/
def upsertOauthUser (provider pid : String)
    (email displayName avatar : Option String) (now fid : String) (db : Db) :
    Db × User :=
  match db.users.find? (directMatch provider pid) with
  | some u₀ =>
      ({ db with
          users := updateFirst (directMatch provider pid)
            (refreshDirect provider pid email displayName avatar now) db.users },
       refreshDirect provider pid email displayName avatar now u₀)
  | none =>
    let ne := normalizeEmail email
    let byEmail := if ne == "" then none
      else findUserByEmailAnyProvider (some ne) db.users
    match byEmail with
    | some u₁ =>
        ({ users := updateFirst
              (fun u => normalizeEmail u.email == normalizeEmail (some ne))
              (attachByEmail provider pid email displayName avatar now) db.users
           userLikes := ensureLikes db.userLikes u₁.id },
         attachByEmail provider pid email displayName avatar now u₁)
    | none =>
        let u := newOauthUser provider pid email displayName avatar now fid
        ({ users := db.users ++ [u]
           userLikes := ensureLikes db.userLikes fid }, u)

/-! ## Session state and likes -/

/-- The per-client session bag (`req.session`): `userId`, `guestLikes`,
`oauthStates`, `oauthNext`. -/
structure Session where
  userId : Option String
  guestLikes : List String
  oauthStates : List (String × String)
  oauthNext : List (String × String)
  deriving DecidableEq, Repr

/-- `getCurrentUser`: look up `req.session.userId` in `USERS`. -/
def getCurrentUser (db : Db) (s : Session) : Option User :=
  match s.userId with
  | none => none
  | some id => db.users.find? (fun u => u.id == id)

/-- `getUserLikes`: the persisted like list of a user (absent key = `[]`). -/
def getUserLikes (likes : List (String × List String)) (uid : String) :
    List String :=
  (alookup likes uid).getD []

/-- `setUserLikes`. -/
def setUserLikes (likes : List (String × List String)) (uid : String)
    (l : List String) : List (String × List String) :=
  aset likes uid l

/-- `Set.prototype.add` on an insertion-ordered set held as a list. -/
def addToSet (l : List String) (x : String) : List String :=
  if l.contains x then l else l ++ [x]

/-- `Array.from(new Set(l))`: order-preserving deduplication. -/
def listToSet (l : List String) : List String :=
  l.foldl addToSet []

/-- `mergeGuestLikesIntoUser` (`src/server.js:268-275`): union the session's
guest like-set into the user's persisted set, then clear the guest set. -/
def mergeGuestLikesIntoUser (s : Session) (userId : String)
    (likes : List (String × List String)) :
    Session × List (String × List String) :=
  if s.guestLikes.isEmpty then (s, likes)
  else
    let current := s.guestLikes.foldl addToSet (listToSet (getUserLikes likes userId))
    ({ s with guestLikes := [] }, setUserLikes likes userId current)

/-! ## OAuth transient state -/

/-- `setOauthState`. -/
def setOauthState (s : Session) (provider state : String) : Session :=
  { s with oauthStates := aset s.oauthStates provider state }

/-- `checkOauthState`: `expected && state && expected === state`. -/
def checkOauthState (s : Session) (provider : String) (state : Option String) :
    Bool :=
  match alookup s.oauthStates provider, state with
  | some expected, some st => expected != "" && st != "" && expected == st
  | _, _ => false

/-- `sanitizeNextUrl` (`src/server.js:318-322`). -/
def sanitizeNextUrl (nextUrl : Option String) : String :=
  let n := if truthyS nextUrl then nextUrl.getD "" else "/"
  if !(jsStartsWith n "/") || jsStartsWith n "//" then "/" else n

/-- `setOauthNext`. -/
def setOauthNext (s : Session) (provider : String) (nextUrl : Option String) :
    Session :=
  { s with oauthNext := aset s.oauthNext provider (sanitizeNextUrl nextUrl) }

/-- `consumeOauthNext` (`src/server.js:330-334`): read, delete, sanitize. -/
def consumeOauthNext (s : Session) (provider : String) : String × Session :=
  let n := alookup s.oauthNext provider
  (sanitizeNextUrl (if truthyS n then n else some "/"),
   { s with oauthNext := aerase s.oauthNext provider })

/-! ## Tracks and playlists -/

/-- A record of the `tracks.json` array; optional fields model fields that may
be absent in the stored JSON. -/
structure Track where
  id : String
  title : Option String
  artistId : Option String
  genre : Option String
  duration : Option String
  cover : Option String
  audio : Option String
  plays : Option Int
  likes : Option Int
  status : Option String
  published : Option Bool
  createdAt : Option String
  submittedBy : Option String
  publishedAt : Option String
  rejectedAt : Option String
  deriving DecidableEq, Repr

/-- `normalizeTrack` (`src/server.js:406-422`): materialize missing fields.
The source mutates field by field; the branches are independent, so the
simultaneous record update below is the same function. -/
def normalizeTrack (t : Track) : Track :=
  { t with
    status := if truthyS t.status then t.status
      else some (if t.published == some false then "pending" else "published")
    cover := if truthyS t.cover then t.cover
      else some "/assets/covers/default.png"
    audio := if truthyS t.audio then t.audio else some "/audio/sample.wav"
    duration := if truthyS t.duration then t.duration else some "0:00"
    plays := match t.plays with | some n => some n | none => some 0
    likes := match t.likes with | some n => some n | none => some 0 }

/-- `isTrackVisibleToUser` (`src/server.js:424-431`). -/
def isTrackVisibleToUser (track : Track) (user : Option User) : Bool :=
  let status := if truthyS track.status then track.status.getD "" else "published"
  if status == "published" then true
  else match user with
    | none => false
    | some u =>
      if u.role == "admin" then true
      else if u.role == "artist" && truthyS u.artistId
          && track.artistId == u.artistId then true
      else false

/-- `POST /admin/tracks/:id/approve` (`src/server.js:694-705`): the effect on
the persisted track collection; `none` models the `404` response, on which
nothing is written back. -/
def adminApproveTrack (raw : List Track) (id now : String) :
    Option (List Track) :=
  let tracks := raw.map normalizeTrack
  match tracks.find? (fun t => t.id == id) with
  | none => none
  | some _ => some (updateFirst (fun t => t.id == id)
      (fun t => { t with status := some "published", publishedAt := some now })
      tracks)

/-- `POST /admin/tracks/:id/reject` (`src/server.js:707-718`). -/
def adminRejectTrack (raw : List Track) (id now : String) :
    Option (List Track) :=
  let tracks := raw.map normalizeTrack
  match tracks.find? (fun t => t.id == id) with
  | none => none
  | some _ => some (updateFirst (fun t => t.id == id)
      (fun t => { t with status := some "rejected", rejectedAt := some now })
      tracks)

/-- A record of the `playlists.json` array. -/
structure Playlist where
  id : String
  title : Option String
  trackIds : Option (List String)
  deriving DecidableEq, Repr

/-- `POST /admin/tracks/:id/delete` (`src/server.js:720-735`): remove the
track and prune its id from every playlist. -/
def adminDeleteTrack (raw : List Track) (playlists : List Playlist)
    (id : String) : List Track × List Playlist :=
  ((raw.map normalizeTrack).filter (fun t => !(t.id == id)),
   playlists.map (fun p =>
     { p with trackIds := some ((p.trackIds.getD []).filter (fun tid => !(tid == id))) }))

/-! ## The like API -/

/-- Error outcomes of `POST /api/like/:trackId`: the `404` and `403` JSON
responses. -/
inductive LikeErr where
  | notFound
  | forbidden
  deriving DecidableEq, Repr

/-- The success JSON body of `POST /api/like/:trackId` (the `guest` flag is
only emitted on the guest branch; here it is `false` on the user branch). -/
structure LikeResp where
  liked : Bool
  likes : List String
  guest : Bool
  deriving DecidableEq, Repr

/-- `POST /api/like/:trackId` (`src/server.js:1110-1149`): returns the new
persisted state together with the response. -/
def apiLikeTrack (trackId : String) (raw : List Track) (db : Db) (s : Session) :
    (Db × Session) × Except LikeErr LikeResp :=
  let user := getCurrentUser db s
  let allTracks := raw.map normalizeTrack
  match allTracks.find? (fun t => t.id == trackId) with
  | none => ((db, s), .error .notFound)
  | some track =>
    if !(isTrackVisibleToUser track user) then ((db, s), .error .forbidden)
    else
      match user with
      | some u =>
        let current := listToSet (getUserLikes db.userLikes u.id)
        if current.contains trackId then
          let nl := current.filter (fun x => !(x == trackId))
          let db' := { db with userLikes := setUserLikes db.userLikes u.id nl }
          ((db', s), .ok { liked := false
                           likes := getUserLikes db'.userLikes u.id
                           guest := false })
        else
          let nl := current ++ [trackId]
          let db' := { db with userLikes := setUserLikes db.userLikes u.id nl }
          ((db', s), .ok { liked := true
                           likes := getUserLikes db'.userLikes u.id
                           guest := false })
      | none =>
        let g := listToSet s.guestLikes
        if g.contains trackId then
          let s' := { s with guestLikes := g.filter (fun x => !(x == trackId)) }
          ((db, s'), .ok { liked := false, likes := s'.guestLikes, guest := true })
        else
          let s' := { s with guestLikes := g ++ [trackId] }
          ((db, s'), .ok { liked := true, likes := s'.guestLikes, guest := true })

/-! ## Local registration -/

/-- Error outcomes of `POST /register` (each is a redirect back to the form
with a human-readable message). -/
inductive RegErr where
  | invalidEmail
  | shortPassword
  | passwordMismatch
  | duplicateEmail
  deriving DecidableEq, Repr

/-- `POST /register` (`src/server.js:811-866`). `pwHash` stands for the
output of `hashPassword(password)` (external randomness and crypto), and
`fid`/`now` for the fresh id and timestamp. On success the new user is
appended, a likes entry is ensured, the session is authenticated and guest
likes are merged. -/
def registerLocal (emailRaw displayName password password2 : Option String)
    (pwHash fid now : String) (db : Db) (s : Session) :
    Except RegErr (Db × Session) :=
  let email := normalizeEmail emailRaw
  let pw := password.getD ""
  let pw2 := password2.getD ""
  if email == "" || !(jsIncludesChar email '@') || email.length < 5 then
    .error .invalidEmail
  else if pw == "" || pw.length < 6 then
    .error .shortPassword
  else if pw != pw2 then
    .error .passwordMismatch
  else
    match findUserByEmailAnyProvider (some email) db.users with
    | some _ => .error .duplicateEmail
    | none =>
      let localPart : String := ⟨email.data.takeWhile (fun c => !(c == '@'))⟩
      let dn := jsTrim (displayName.getD "")
      let user : User :=
        { id := fid
          provider := "local"
          providerId := none
          email := some email
          displayName := some (if dn != "" then dn
            else if localPart != "" then localPart else "User")
          avatar := none
          role := "user"
          artistId := none
          passwordHash := some pwHash
          oauthLinks := []
          createdAt := some now }
      let db' : Db := { users := db.users ++ [user]
                        userLikes := ensureLikes db.userLikes fid }
      let s₁ := { s with userId := some fid }
      let m := mergeGuestLikesIntoUser s₁ fid db'.userLikes
      .ok ({ db' with userLikes := m.2 }, m.1)

/-! ## OAuth callback -/

/-- The identity shape every provider adapter normalizes its profile fetch
into before calling `upsertOauthUser`. -/
structure OauthProfile where
  providerId : String
  email : Option String
  displayName : Option String
  avatar : Option String
  deriving DecidableEq, Repr

/-- Error outcomes of the callback's own checks (provider errors during the
external token/profile exchange terminate the request without touching the
session and are outside this model). -/
inductive CbErr where
  | badState
  | noCode
  deriving DecidableEq, Repr

/-- The session/store logic of `GET /auth/:provider/callback`
(`src/server.js:934-977` and the `vk`/`yandex` twins): state check, code
check, then — with the external token exchange and profile fetch modelled as
producing `profile` — upsert, session login, guest-like merge and redirect to
the consumed `next` target. -/
def oauthCallback (provider : String) (qstate qcode : Option String)
    (profile : OauthProfile) (now fid : String) (db : Db) (s : Session) :
    Except CbErr (Db × Session × String) :=
  if !(checkOauthState s provider qstate) then .error .badState
  else if !(truthyS qcode) then .error .noCode
  else
    let r := upsertOauthUser provider profile.providerId profile.email
      profile.displayName profile.avatar now fid db
    let s₁ := { s with userId := some r.2.id }
    let m := mergeGuestLikesIntoUser s₁ r.2.id r.1.userLikes
    let c := consumeOauthNext m.1 provider
    .ok ({ r.1 with userLikes := m.2 }, c.2, c.1)

/-! ## The uniqueness invariant (spec §3/§8) -/

/-- The user owns the OAuth identity `(p, pid)`: either as its primary
`provider`/`providerId` fields or through an `oauthLinks[p]` entry. -/
def hasIdentity (p pid : String) (u : User) : Bool :=
  (u.provider == p && u.providerId == some pid) ||
  (match alookup u.oauthLinks p with
   | some l => l.providerId == pid
   | none => false)

/-- At most one user record per `(provider, providerId)` pair, counting the
primary provider fields and every `oauthLinks` entry. -/
def PairUnique (users : List User) : Prop :=
  ∀ p pid, users.countP (hasIdentity p pid) ≤ 1

/-- At most one local-provider record per (non-empty) normalized email. -/
def LocalEmailUnique (users : List User) : Prop :=
  ∀ e, e ≠ "" →
    users.countP
      (fun u => u.provider == "local" && normalizeEmail u.email == e) ≤ 1

/-! ## Sample records (concrete inputs for witnesses) -/

/-- A track record with only the mandatory `id` set. -/
def baseTrack (id : String) : Track :=
  { id := id, title := none, artistId := none, genre := none, duration := none,
    cover := none, audio := none, plays := none, likes := none, status := none,
    published := none, createdAt := none, submittedBy := none,
    publishedAt := none, rejectedAt := none }

/-- A local user record with only `id` (and defaults) set. -/
def baseUser (id : String) : User :=
  { id := id, provider := "local", providerId := none, email := none,
    displayName := none, avatar := none, role := "user", artistId := none,
    passwordHash := none, oauthLinks := [], createdAt := none }

/-- A fresh session. -/
def emptySession : Session :=
  { userId := none, guestLikes := [], oauthStates := [], oauthNext := [] }

/-- A local user with email `a@x` whose account has a Google link `g1`. -/
def cexUserLinked : User :=
  { baseUser "u1" with
      email := some "a@x"
      oauthLinks := [("google", { providerId := "g1", email := none, avatar := none, linkedAt := some "t0", lastLoginAt := some "t0" })] }

/-- A second, unlinked local user with email `b@x`. -/
def cexUserPlain : User :=
  { baseUser "u2" with email := some "b@x" }

/-! ## Helper lemmas -/

theorem chIsPref_cons (c : Char) (cs l : List Char)
    (h : chIsPref (c :: cs) l = true) : ∃ ds, l = c :: ds := by
  cases l with
  | nil => simp [chIsPref] at h
  | cons d ds =>
    refine ⟨ds, ?_⟩
    simp only [chIsPref, Bool.and_eq_true, beq_iff_eq] at h
    rw [h.1]

theorem start_slash_not_scheme (s : String) (h : jsStartsWith s "/" = true) :
    jsStartsWith s "http://" = false ∧ jsStartsWith s "https://" = false ∧
    jsStartsWith s "javascript:" = false := by
  have hd : ("/" : String).data = ['/'] := by decide
  rw [jsStartsWith, hd] at h
  obtain ⟨ds, hds⟩ := chIsPref_cons _ _ _ h
  have h1 : ("http://" : String).data = 'h' :: "ttp://".data := by decide
  have h2 : ("https://" : String).data = 'h' :: "ttps://".data := by decide
  have h3 : ("javascript:" : String).data = 'j' :: "avascript:".data := by decide
  refine ⟨?_, ?_, ?_⟩ <;>
    · rw [jsStartsWith, hds]
      first
        | rw [h1] | rw [h2] | rw [h3]
      simp [chIsPref]

theorem sanitizeNextUrl_slash (n : Option String) :
    jsStartsWith (sanitizeNextUrl n) "/" = true ∧
    jsStartsWith (sanitizeNextUrl n) "//" = false := by
  have key : ∀ m : String,
      jsStartsWith
        (if !(jsStartsWith m "/") || jsStartsWith m "//" then "/" else m) "/"
        = true ∧
      jsStartsWith
        (if !(jsStartsWith m "/") || jsStartsWith m "//" then "/" else m) "//"
        = false := by
    intro m
    cases hb : (!(jsStartsWith m "/") || jsStartsWith m "//") with
    | true => rw [if_pos rfl]; exact ⟨by decide, by decide⟩
    | false =>
      rw [if_neg (by simp)]
      simp only [Bool.or_eq_false_iff, Bool.not_eq_false'] at hb
      exact ⟨hb.1, hb.2⟩
  exact key (if truthyS n then n.getD "" else "/")

/-- C8: every sanitized post-login redirect target — in particular everything
`consumeOauthNext` can return — is a same-origin relative path: it starts
with `/`, does not start with `//`, and is never an `http://`, `https://` or
`javascript:` URL; a missing input and a missing recorded target both yield
`/`. -/
theorem sanitizeNextUrl_safe :
    (∀ n : Option String,
      jsStartsWith (sanitizeNextUrl n) "/" = true ∧
      jsStartsWith (sanitizeNextUrl n) "//" = false ∧
      jsStartsWith (sanitizeNextUrl n) "http://" = false ∧
      jsStartsWith (sanitizeNextUrl n) "https://" = false ∧
      jsStartsWith (sanitizeNextUrl n) "javascript:" = false) ∧
    sanitizeNextUrl none = "/" ∧
    (∀ (s : Session) (p : String),
      jsStartsWith (consumeOauthNext s p).1 "/" = true ∧
      jsStartsWith (consumeOauthNext s p).1 "//" = false ∧
      jsStartsWith (consumeOauthNext s p).1 "http://" = false ∧
      (alookup s.oauthNext p = none → (consumeOauthNext s p).1 = "/")) := by
  have base : ∀ n : Option String,
      jsStartsWith (sanitizeNextUrl n) "/" = true ∧
      jsStartsWith (sanitizeNextUrl n) "//" = false ∧
      jsStartsWith (sanitizeNextUrl n) "http://" = false ∧
      jsStartsWith (sanitizeNextUrl n) "https://" = false ∧
      jsStartsWith (sanitizeNextUrl n) "javascript:" = false := by
    intro n
    obtain ⟨hs, hss⟩ := sanitizeNextUrl_slash n
    obtain ⟨p1, p2, p3⟩ := start_slash_not_scheme _ hs
    exact ⟨hs, hss, p1, p2, p3⟩
  refine ⟨base, by decide, ?_⟩
  intro s p
  have hc : (consumeOauthNext s p).1 =
      sanitizeNextUrl (if truthyS (alookup s.oauthNext p) then alookup s.oauthNext p
        else some "/") := rfl
  obtain ⟨hs, hss, h1, _, _⟩ := base (if truthyS (alookup s.oauthNext p)
    then alookup s.oauthNext p else some "/")
  refine ⟨by rw [hc]; exact hs, by rw [hc]; exact hss, by rw [hc]; exact h1, ?_⟩
  intro hnone
  rw [hc, hnone]
  decide

/-- C8 witness: at the concrete inputs `none` and `some "https://evil.com"`
the sanitized target is a safe relative path. -/
theorem sanitizeNextUrl_safe_w :
    sanitizeNextUrl none = "/" ∧
    jsStartsWith (sanitizeNextUrl (some "https://evil.com")) "https://" = false ∧
    jsStartsWith (sanitizeNextUrl (some "/library")) "/" = true := by
  refine ⟨sanitizeNextUrl_safe.2.1, ?_, ?_⟩
  · exact (sanitizeNextUrl_safe.1 (some "https://evil.com")).2.2.2.1
  · exact (sanitizeNextUrl_safe.1 (some "/library")).1

/-- C6: a `published` track is visible to every requester, anonymous ones
included; a `pending` or `rejected` track is visible exactly to an admin
requester or an artist requester whose `artistId` is set (truthy) and equals
the track's `artistId`; in particular it is invisible to an anonymous
requester and to a `user`-role requester. -/
theorem isTrackVisibleToUser_spec (t : Track) (v : User) :
    (t.status = some "published" →
      ∀ u : Option User, isTrackVisibleToUser t u = true) ∧
    (t.status = some "pending" ∨ t.status = some "rejected" →
      isTrackVisibleToUser t none = false ∧
      isTrackVisibleToUser t (some v) =
        (v.role == "admin" || (v.role == "artist" && truthyS v.artistId
          && t.artistId == v.artistId)) ∧
      (v.role = "user" → isTrackVisibleToUser t (some v) = false)) := by
  constructor
  · intro hpub u
    simp [isTrackVisibleToUser, hpub, truthyS]
  · intro hst
    have hvis : ∀ w : Option User, isTrackVisibleToUser t w =
        (match w with
         | none => false
         | some u =>
           if u.role == "admin" then true
           else if u.role == "artist" && truthyS u.artistId
               && t.artistId == u.artistId then true
           else false) := by
      intro w
      rcases hst with h | h <;> simp [isTrackVisibleToUser, h, truthyS]
    refine ⟨by rw [hvis], ?_, ?_⟩
    · rw [hvis]
      by_cases hadm : v.role = "admin"
      · simp [hadm]
      · by_cases hart : v.role = "artist"
        · simp only [hart]
          cases hq : (("artist" == "artist" : Bool) && truthyS v.artistId
              && t.artistId == v.artistId) <;> simp_all
        · simp [hadm, hart]
    · intro hrole
      rw [hvis]
      simp [hrole]

theorem mem_addToSet (l : List String) (x y : String) :
    x ∈ addToSet l y ↔ x ∈ l ∨ x = y := by
  rw [addToSet]
  by_cases h : l.contains y
  · rw [if_pos h]
    have hy : y ∈ l := List.elem_iff.mp h
    constructor
    · exact fun hx => Or.inl hx
    · rintro (hx | rfl)
      · exact hx
      · exact hy
  · rw [if_neg h]
    simp [List.mem_append]

theorem mem_foldl_addToSet (l : List String) (init : List String) (x : String) :
    x ∈ l.foldl addToSet init ↔ x ∈ init ∨ x ∈ l := by
  induction l generalizing init with
  | nil => simp
  | cons y ys ih =>
    rw [List.foldl_cons, ih, mem_addToSet]
    simp only [List.mem_cons]
    tauto

theorem mem_listToSet (l : List String) (x : String) :
    x ∈ listToSet l ↔ x ∈ l := by
  rw [listToSet, mem_foldl_addToSet]
  simp

theorem alookup_aset_self {α : Type} (l : List (String × α)) (k : String)
    (v : α) : alookup (aset l k v) k = some v := by
  induction l with
  | nil => simp [aset, alookup]
  | cons p rest ih =>
    rw [aset]
    by_cases h : p.1 == k
    · rw [if_pos h, alookup, if_pos (by simp)]
    · rw [if_neg h, alookup, if_neg h]
      exact ih

theorem alookup_aset_other {α : Type} (l : List (String × α)) (k k' : String)
    (v : α) (h : k' ≠ k) : alookup (aset l k v) k' = alookup l k' := by
  have hkk : (k == k') = false := beq_eq_false_iff_ne.mpr (fun hh => h hh.symm)
  induction l with
  | nil => simp [aset, alookup, hkk]
  | cons p rest ih =>
    rw [aset]
    by_cases hp : (p.1 == k) = true
    · have hpk : p.1 = k := by simpa using hp
      rw [if_pos hp, alookup, alookup, hpk]
      simp [hkk]
    · rw [if_neg hp, alookup, alookup]
      by_cases hk : (p.1 == k') = true
      · rw [if_pos hk, if_pos hk]
      · rw [if_neg hk, if_neg hk, ih]

theorem length_updateFirst {α : Type} (q : α → Bool) (f : α → α) (l : List α) :
    (updateFirst q f l).length = l.length := by
  induction l with
  | nil => rfl
  | cons x xs ih =>
    rw [updateFirst]
    by_cases h : q x
    · rw [if_pos h]; simp
    · rw [if_neg h]; simp [ih]

theorem find?_updateFirst {α : Type} (q : α → Bool) (f : α → α) (l : List α)
    (x : α) (hf : l.find? q = some x) (hq : ∀ a, q a = true → q (f a) = true) :
    (updateFirst q f l).find? q = some (f x) := by
  induction l with
  | nil => simp at hf
  | cons y ys ih =>
    rw [updateFirst]
    by_cases h : q y = true
    · rw [if_pos h]
      rw [List.find?_cons_of_pos _ h] at hf
      injection hf with hf
      rw [List.find?_cons_of_pos _ (hq y h), hf]
    · rw [if_neg h]
      rw [List.find?_cons_of_neg _ (by simpa using h)] at hf
      rw [List.find?_cons_of_neg _ (by simpa using h)]
      exact ih hf

theorem mem_updateFirst_of_not {α : Type} (q : α → Bool) (f : α → α)
    (l : List α) (x : α) (hx : x ∈ l) (hq : q x = false) :
    x ∈ updateFirst q f l := by
  induction l with
  | nil => simp at hx
  | cons y ys ih =>
    rw [updateFirst]
    rcases List.mem_cons.mp hx with rfl | hmem
    · rw [if_neg (by simp [hq])]
      exact List.mem_cons_self _ _
    · by_cases h : q y
      · rw [if_pos h]
        exact List.mem_cons_of_mem _ hmem
      · rw [if_neg h]
        exact List.mem_cons_of_mem _ (ih hmem)

theorem map_updateFirst {α β : Type} (q : α → Bool) (f : α → α) (g : α → β)
    (l : List α) (hg : ∀ a, g (f a) = g a) :
    (updateFirst q f l).map g = l.map g := by
  induction l with
  | nil => rfl
  | cons y ys ih =>
    rw [updateFirst]
    by_cases h : q y
    · rw [if_pos h]
      simp [hg]
    · rw [if_neg h]
      simp [ih]

/-- C4: `mergeGuestLikesIntoUser` makes the user's persisted like-set the set
union of its previous value and the session's guest like-set, clears the
guest set, and is idempotent: an immediate second run changes neither the
persisted set nor the session. -/
theorem mergeGuestLikesIntoUser_spec (s : Session) (uid : String)
    (likes : List (String × List String)) :
    (∀ x, x ∈ getUserLikes (mergeGuestLikesIntoUser s uid likes).2 uid ↔
      (x ∈ getUserLikes likes uid ∨ x ∈ s.guestLikes)) ∧
    (mergeGuestLikesIntoUser s uid likes).1.guestLikes = [] ∧
    mergeGuestLikesIntoUser (mergeGuestLikesIntoUser s uid likes).1 uid
        (mergeGuestLikesIntoUser s uid likes).2 =
      ((mergeGuestLikesIntoUser s uid likes).1,
       (mergeGuestLikesIntoUser s uid likes).2) := by
  by_cases hg : s.guestLikes.isEmpty
  · have hnil : s.guestLikes = [] := List.isEmpty_iff.mp hg
    rw [mergeGuestLikesIntoUser, if_pos hg]
    refine ⟨fun x => by simp [hnil], hnil, ?_⟩
    rw [mergeGuestLikesIntoUser, if_pos hg]
  · rw [mergeGuestLikesIntoUser, if_neg hg]
    refine ⟨?_, rfl, ?_⟩
    · intro x
      have hset : getUserLikes
          (setUserLikes likes uid
            (s.guestLikes.foldl addToSet (listToSet (getUserLikes likes uid))))
          uid =
          s.guestLikes.foldl addToSet (listToSet (getUserLikes likes uid)) := by
        rw [getUserLikes, setUserLikes, alookup_aset_self]
        rfl
      rw [hset, mem_foldl_addToSet, mem_listToSet]
    · rw [mergeGuestLikesIntoUser]
      rfl

/-- C7: the admin approve action sets the target's status to `published` and
stamps `publishedAt`, the reject action sets `rejected` and stamps
`rejectedAt`, as an unguarded overwrite: the postcondition is the same
whatever `t₀`'s previous status was (`pending`, `published`, `rejected` or a
legacy default). A nonexistent id yields the NotFound outcome, modelled by
`none`, on which no collection is written back. -/
theorem adminApproveRejectTrack_spec (raw : List Track) (id now : String) :
    ((raw.map normalizeTrack).find? (fun t => t.id == id) = none →
      adminApproveTrack raw id now = none ∧ adminRejectTrack raw id now = none) ∧
    (∀ t₀, (raw.map normalizeTrack).find? (fun t => t.id == id) = some t₀ →
      (∃ l', adminApproveTrack raw id now = some l' ∧
        l'.length = raw.length ∧
        l'.find? (fun t => t.id == id) =
          some { t₀ with status := some "published", publishedAt := some now }) ∧
      (∃ l', adminRejectTrack raw id now = some l' ∧
        l'.length = raw.length ∧
        l'.find? (fun t => t.id == id) =
          some { t₀ with status := some "rejected", rejectedAt := some now })) := by
  constructor
  · intro hnone
    rw [adminApproveTrack, adminRejectTrack, hnone]
    exact ⟨rfl, rfl⟩
  · intro t₀ hsome
    constructor
    · refine ⟨_, by rw [adminApproveTrack, hsome], ?_, ?_⟩
      · rw [length_updateFirst, List.length_map]
      · exact find?_updateFirst _ _ _ _ hsome (fun a ha => ha)
    · refine ⟨_, by rw [adminRejectTrack, hsome], ?_, ?_⟩
      · rw [length_updateFirst, List.length_map]
      · exact find?_updateFirst _ _ _ _ hsome (fun a ha => ha)
theorem isTrackVisibleToUser_spec_w :
    isTrackVisibleToUser
      { id := "t1", title := some "T", artistId := some "a1", genre := none,
        duration := none, cover := none, audio := none, plays := some 0,
        likes := some 0, status := some "pending", published := none,
        createdAt := none, submittedBy := none, publishedAt := none,
        rejectedAt := none } none = false ∧
    isTrackVisibleToUser
      { id := "t1", title := some "T", artistId := some "a1", genre := none,
        duration := none, cover := none, audio := none, plays := some 0,
        likes := some 0, status := some "pending", published := none,
        createdAt := none, submittedBy := none, publishedAt := none,
        rejectedAt := none }
      (some { id := "u_artist", provider := "local", providerId := none,
              email := none, displayName := none, avatar := none,
              role := "artist", artistId := some "a1", passwordHash := none,
              oauthLinks := [], createdAt := none }) = true := by
  have h := isTrackVisibleToUser_spec
    { id := "t1", title := some "T", artistId := some "a1", genre := none,
      duration := none, cover := none, audio := none, plays := some 0,
      likes := some 0, status := some "pending", published := none,
      createdAt := none, submittedBy := none, publishedAt := none,
      rejectedAt := none }
    { id := "u_artist", provider := "local", providerId := none,
      email := none, displayName := none, avatar := none,
      role := "artist", artistId := some "a1", passwordHash := none,
      oauthLinks := [], createdAt := none }
  obtain ⟨-, h2⟩ := h
  obtain ⟨ha, hb, -⟩ := h2 (Or.inl rfl)
  exact ⟨ha, by rw [hb]; decide⟩

/-- C7 witness: approving/rejecting a concrete `pending` track overwrites its
status and stamps the timestamp; the same approve on a missing id is
NotFound. -/
theorem adminApproveRejectTrack_spec_w :
    (adminApproveTrack [{ baseTrack "t1" with status := some "pending" }] "t1"
      "n9").isSome = true ∧
    ((adminApproveTrack [{ baseTrack "t1" with status := some "pending" }] "t1"
        "n9").getD []).find? (fun t => t.id == "t1") =
      some { normalizeTrack { baseTrack "t1" with status := some "pending" } with
              status := some "published", publishedAt := some "n9" } ∧
    adminApproveTrack [{ baseTrack "t1" with status := some "pending" }] "zz"
      "n9" = none := by
  have h := adminApproveRejectTrack_spec
    [{ baseTrack "t1" with status := some "pending" }] "t1" "n9"
  obtain ⟨⟨l', h1, -, h3⟩, -⟩ := h.2
    (normalizeTrack { baseTrack "t1" with status := some "pending" }) (by decide)
  have hmiss := (adminApproveRejectTrack_spec
    [{ baseTrack "t1" with status := some "pending" }] "zz" "n9").1 (by decide)
  refine ⟨by rw [h1]; rfl, ?_, hmiss.1⟩
  rw [h1]
  simpa using h3

/-- C9: the admin delete action removes exactly the tracks with the given id
from the (re-normalized) persisted collection — every other track is kept, in
order — and prunes that id from every playlist's `trackIds`, keeping the
remaining ids of each playlist in their relative order. -/
theorem adminDeleteTrack_spec (raw : List Track) (playlists : List Playlist)
    (id : String) :
    (∀ t ∈ (adminDeleteTrack raw playlists id).1, ¬(t.id = id)) ∧
    (∀ t ∈ raw, ¬(t.id = id) →
      normalizeTrack t ∈ (adminDeleteTrack raw playlists id).1) ∧
    List.Sublist (adminDeleteTrack raw playlists id).1 (raw.map normalizeTrack) ∧
    (adminDeleteTrack raw playlists id).2.length = playlists.length ∧
    (∀ p ∈ playlists, ∃ p' ∈ (adminDeleteTrack raw playlists id).2,
      p'.id = p.id ∧ p'.title = p.title ∧
      ¬(id ∈ p'.trackIds.getD []) ∧
      List.Sublist (p'.trackIds.getD []) (p.trackIds.getD []) ∧
      (∀ x ∈ p.trackIds.getD [], ¬(x = id) → x ∈ p'.trackIds.getD [])) := by
  refine ⟨?_, ?_, ?_, ?_, ?_⟩
  · intro t ht
    have := (List.mem_filter.mp ht).2
    simpa using this
  · intro t ht hne
    refine List.mem_filter.mpr ⟨List.mem_map_of_mem _ ht, ?_⟩
    have hid : (normalizeTrack t).id = t.id := rfl
    simp [hid, hne]
  · exact List.filter_sublist _
  · simp [adminDeleteTrack]
  · intro p hp
    refine ⟨_, List.mem_map_of_mem _ hp, rfl, rfl, ?_, ?_, ?_⟩
    · intro hmem
      have := (List.mem_filter.mp hmem).2
      simp at this
    · exact List.filter_sublist _
    · intro x hx hne
      exact List.mem_filter.mpr ⟨hx, by simpa using hne⟩

/-- C9 witness: deleting `t1` from a concrete two-track store with a playlist
`[t1, t2, t1]` keeps `t2` and prunes the playlist to `[t2]`. -/
theorem adminDeleteTrack_spec_w :
    normalizeTrack { baseTrack "t2" with status := some "published" } ∈
      (adminDeleteTrack
        [{ baseTrack "t1" with status := some "pending" },
         { baseTrack "t2" with status := some "published" }]
        [{ id := "p1", title := some "P", trackIds := some ["t1", "t2", "t1"] }]
        "t1").1 ∧
    (adminDeleteTrack
        [{ baseTrack "t1" with status := some "pending" },
         { baseTrack "t2" with status := some "published" }]
        [{ id := "p1", title := some "P", trackIds := some ["t1", "t2", "t1"] }]
        "t1").2 =
      [{ id := "p1", title := some "P", trackIds := some ["t2"] }] := by
  have h := adminDeleteTrack_spec
    [{ baseTrack "t1" with status := some "pending" },
     { baseTrack "t2" with status := some "published" }]
    [{ id := "p1", title := some "P", trackIds := some ["t1", "t2", "t1"] }]
    "t1"
  refine ⟨h.2.1 _ (by decide) (by decide), by decide⟩

/-- C10: approve and reject rewrite the whole collection through
`normalizeTrack`: every non-target raw track appears in the written
collection as its normalized form (collection length preserved), and
`normalizeTrack` only materializes the documented defaults — status from the
legacy `published` flag (or `published`), the default cover/audio/duration
and zero plays/likes — leaving every present field of the track unchanged. -/
theorem moderationNormalization_spec (raw : List Track) (id now : String) :
    (∀ l', adminApproveTrack raw id now = some l' →
      l'.length = raw.length ∧
      ∀ t ∈ raw, ¬(t.id = id) → normalizeTrack t ∈ l') ∧
    (∀ l', adminRejectTrack raw id now = some l' →
      l'.length = raw.length ∧
      ∀ t ∈ raw, ¬(t.id = id) → normalizeTrack t ∈ l') ∧
    (∀ t : Track,
      (normalizeTrack t).id = t.id ∧
      (normalizeTrack t).title = t.title ∧
      (normalizeTrack t).artistId = t.artistId ∧
      (normalizeTrack t).genre = t.genre ∧
      (normalizeTrack t).createdAt = t.createdAt ∧
      (normalizeTrack t).submittedBy = t.submittedBy ∧
      (normalizeTrack t).publishedAt = t.publishedAt ∧
      (normalizeTrack t).rejectedAt = t.rejectedAt ∧
      (normalizeTrack t).published = t.published ∧
      (truthyS t.status = true → (normalizeTrack t).status = t.status) ∧
      (truthyS t.status = false → (normalizeTrack t).status =
        some (if t.published == some false then "pending" else "published")) ∧
      (truthyS t.cover = true → (normalizeTrack t).cover = t.cover) ∧
      (truthyS t.cover = false →
        (normalizeTrack t).cover = some "/assets/covers/default.png") ∧
      (truthyS t.audio = true → (normalizeTrack t).audio = t.audio) ∧
      (truthyS t.audio = false →
        (normalizeTrack t).audio = some "/audio/sample.wav") ∧
      (truthyS t.duration = true → (normalizeTrack t).duration = t.duration) ∧
      (truthyS t.duration = false → (normalizeTrack t).duration = some "0:00") ∧
      (t.plays = none → (normalizeTrack t).plays = some 0) ∧
      (∀ n, t.plays = some n → (normalizeTrack t).plays = some n) ∧
      (t.likes = none → (normalizeTrack t).likes = some 0) ∧
      (∀ n, t.likes = some n → (normalizeTrack t).likes = some n)) := by
  refine ⟨?_, ?_, ?_⟩
  · intro l' hl
    rw [adminApproveTrack] at hl
    rcases hfind : (raw.map normalizeTrack).find? (fun t => t.id == id) with _ | t₀
    · rw [hfind] at hl; exact absurd hl (by simp)
    · rw [hfind] at hl
      injection hl with hl
      subst hl
      refine ⟨by rw [length_updateFirst, List.length_map], ?_⟩
      intro t ht hne
      exact mem_updateFirst_of_not _ _ _ _ (List.mem_map_of_mem _ ht)
        (by simpa using hne)
  · intro l' hl
    rw [adminRejectTrack] at hl
    rcases hfind : (raw.map normalizeTrack).find? (fun t => t.id == id) with _ | t₀
    · rw [hfind] at hl; exact absurd hl (by simp)
    · rw [hfind] at hl
      injection hl with hl
      subst hl
      refine ⟨by rw [length_updateFirst, List.length_map], ?_⟩
      intro t ht hne
      exact mem_updateFirst_of_not _ _ _ _ (List.mem_map_of_mem _ ht)
        (by simpa using hne)
  · intro t
    refine ⟨rfl, rfl, rfl, rfl, rfl, rfl, rfl, rfl, rfl, ?_, ?_, ?_, ?_, ?_, ?_,
      ?_, ?_, ?_, ?_, ?_, ?_⟩
    · intro h; simp [normalizeTrack, h]
    · intro h; simp [normalizeTrack, h]
    · intro h; simp [normalizeTrack, h]
    · intro h; simp [normalizeTrack, h]
    · intro h; simp [normalizeTrack, h]
    · intro h; simp [normalizeTrack, h]
    · intro h; simp [normalizeTrack, h]
    · intro h; simp [normalizeTrack, h]
    · intro h; simp [normalizeTrack, h]
    · intro n h; simp [normalizeTrack, h]
    · intro h; simp [normalizeTrack, h]
    · intro n h; simp [normalizeTrack, h]

/-- C10 witness: approving `t1` in a concrete store materializes the missing
defaults of the untouched legacy track `t2` while keeping its present
fields. -/
theorem moderationNormalization_spec_w :
    normalizeTrack { baseTrack "t2" with published := some false } ∈
      (adminApproveTrack
        [{ baseTrack "t1" with status := some "pending" },
         { baseTrack "t2" with published := some false }] "t1" "n9").getD [] ∧
    (normalizeTrack { baseTrack "t2" with published := some false }).status =
      some "pending" ∧
    (normalizeTrack { baseTrack "t2" with published := some false }).cover =
      some "/assets/covers/default.png" ∧
    (normalizeTrack { baseTrack "t2" with published := some false }).plays =
      some 0 := by
  have h := moderationNormalization_spec
    [{ baseTrack "t1" with status := some "pending" },
     { baseTrack "t2" with published := some false }] "t1" "n9"
  have hfields := h.2.2 { baseTrack "t2" with published := some false }
  refine ⟨?_, ?_, ?_, ?_⟩
  · have happ := h.1
      ((adminApproveTrack
        [{ baseTrack "t1" with status := some "pending" },
         { baseTrack "t2" with published := some false }] "t1" "n9").getD [])
      (by decide)
    exact happ.2 _ (by decide) (by decide)
  · have := hfields.2.2.2.2.2.2.2.2.2.2.1 (by decide)
    simpa using this
  · exact hfields.2.2.2.2.2.2.2.2.2.2.2.2.1 (by decide)
  · exact hfields.2.2.2.2.2.2.2.2.2.2.2.2.2.2.2.2.2.1 rfl

theorem getUserLikes_set_self (m : List (String × List String)) (uid : String)
    (l : List String) : getUserLikes (setUserLikes m uid l) uid = l := by
  rw [getUserLikes, setUserLikes, alookup_aset_self]
  rfl

theorem contains_eq (l : List String) (x : String) :
    l.contains x = true ↔ x ∈ l := List.elem_iff

theorem contains_listToSet (l : List String) (x : String) :
    (listToSet l).contains x = l.contains x := by
  by_cases h : x ∈ l
  · rw [(contains_eq l x).mpr h,
      (contains_eq (listToSet l) x).mpr ((mem_listToSet l x).mpr h)]
  · have h1 : l.contains x = false :=
      Bool.eq_false_iff.mpr (fun hc => h ((contains_eq l x).mp hc))
    have h2 : (listToSet l).contains x = false :=
      Bool.eq_false_iff.mpr
        (fun hc => h ((mem_listToSet l x).mp ((contains_eq _ x).mp hc)))
    rw [h1, h2]

/-- C5: `POST /api/like/:trackId` — a missing track id gives NotFound and an
existing but invisible track gives Forbidden, in both cases with the
persisted store and the session returned untouched; otherwise the call
toggles the track's membership in the applicable store (the persisted set of
an authenticated caller, the session guest set of a guest): absent → added
with `liked = true`, present → removed with `liked = false`, and the
response's `likes` equals the post-toggle store. -/
theorem apiLikeTrack_spec (trackId : String) (raw : List Track) (db : Db)
    (s : Session) :
    ((raw.map normalizeTrack).find? (fun t => t.id == trackId) = none →
      apiLikeTrack trackId raw db s = ((db, s), .error .notFound)) ∧
    (∀ track,
      (raw.map normalizeTrack).find? (fun t => t.id == trackId) = some track →
      isTrackVisibleToUser track (getCurrentUser db s) = false →
      apiLikeTrack trackId raw db s = ((db, s), .error .forbidden)) ∧
    (∀ track u,
      (raw.map normalizeTrack).find? (fun t => t.id == trackId) = some track →
      isTrackVisibleToUser track (getCurrentUser db s) = true →
      getCurrentUser db s = some u →
      ∃ resp, (apiLikeTrack trackId raw db s).2 = .ok resp ∧
        resp.guest = false ∧
        resp.liked = !((getUserLikes db.userLikes u.id).contains trackId) ∧
        resp.likes = getUserLikes (apiLikeTrack trackId raw db s).1.1.userLikes u.id ∧
        (∀ x, x ∈ resp.likes ↔
          (if x = trackId then ¬(trackId ∈ getUserLikes db.userLikes u.id)
           else x ∈ getUserLikes db.userLikes u.id)) ∧
        (apiLikeTrack trackId raw db s).1.2 = s ∧
        (apiLikeTrack trackId raw db s).1.1.users = db.users) ∧
    (∀ track,
      (raw.map normalizeTrack).find? (fun t => t.id == trackId) = some track →
      isTrackVisibleToUser track (getCurrentUser db s) = true →
      getCurrentUser db s = none →
      ∃ resp, (apiLikeTrack trackId raw db s).2 = .ok resp ∧
        resp.guest = true ∧
        resp.liked = !(s.guestLikes.contains trackId) ∧
        resp.likes = (apiLikeTrack trackId raw db s).1.2.guestLikes ∧
        (∀ x, x ∈ resp.likes ↔
          (if x = trackId then ¬(trackId ∈ s.guestLikes)
           else x ∈ s.guestLikes)) ∧
        (apiLikeTrack trackId raw db s).1.1 = db) := by
  refine ⟨?_, ?_, ?_, ?_⟩
  · intro hfind
    simp only [apiLikeTrack, hfind]
  · intro track hfind hvis
    simp only [apiLikeTrack, hfind, hvis]
    rfl
  · intro track u hfind hvis hu
    have hvis' : isTrackVisibleToUser track (some u) = true := by
      rw [hu] at hvis
      exact hvis
    have hres : apiLikeTrack trackId raw db s =
        (let current := listToSet (getUserLikes db.userLikes u.id)
         if current.contains trackId then
           let nl := current.filter (fun x => !(x == trackId))
           let db' := { db with userLikes := setUserLikes db.userLikes u.id nl }
           ((db', s), .ok { liked := false
                            likes := getUserLikes db'.userLikes u.id
                            guest := false })
         else
           let nl := current ++ [trackId]
           let db' := { db with userLikes := setUserLikes db.userLikes u.id nl }
           ((db', s), .ok { liked := true
                            likes := getUserLikes db'.userLikes u.id
                            guest := false })) := by
      simp only [apiLikeTrack, hfind, hu, hvis']
      rfl
    by_cases hc : trackId ∈ getUserLikes db.userLikes u.id
    · have hcb : (listToSet (getUserLikes db.userLikes u.id)).contains trackId
          = true := by
        rw [contains_listToSet]
        exact (contains_eq _ _).mpr hc
      have hres2 : apiLikeTrack trackId raw db s =
          (({ db with userLikes := setUserLikes db.userLikes u.id ((listToSet (getUserLikes db.userLikes u.id)).filter (fun x => !(x == trackId))) }, s),
           .ok { liked := false
                 likes := getUserLikes (setUserLikes db.userLikes u.id ((listToSet (getUserLikes db.userLikes u.id)).filter (fun x => !(x == trackId)))) u.id
                 guest := false }) :=
        hres.trans (by simp only [hcb, if_true])
      have hset := getUserLikes_set_self db.userLikes u.id
        ((listToSet (getUserLikes db.userLikes u.id)).filter
          (fun x => !(x == trackId)))
      refine ⟨_, by rw [hres2], rfl, ?_, ?_, ?_, ?_, ?_⟩
      · rw [(contains_eq _ _).mpr hc]
        rfl
      · rw [hres2]
      · intro x
        rw [hset]
        by_cases hx : x = trackId
        · subst hx
          simp [List.mem_filter, hc]
        · simp only [if_neg hx]
          rw [List.mem_filter, mem_listToSet]
          simp [hx]
      · rw [hres2]
      · rw [hres2]
    · have hcb : (listToSet (getUserLikes db.userLikes u.id)).contains trackId
          = false := by
        rw [contains_listToSet]
        exact Bool.eq_false_iff.mpr (fun hb => hc ((contains_eq _ _).mp hb))
      have hres2 : apiLikeTrack trackId raw db s =
          (({ db with userLikes := setUserLikes db.userLikes u.id (listToSet (getUserLikes db.userLikes u.id) ++ [trackId]) }, s),
           .ok { liked := true
                 likes := getUserLikes (setUserLikes db.userLikes u.id (listToSet (getUserLikes db.userLikes u.id) ++ [trackId])) u.id
                 guest := false }) :=
        hres.trans (by simp only [hcb, Bool.false_eq_true, if_false])
      have hset := getUserLikes_set_self db.userLikes u.id
        (listToSet (getUserLikes db.userLikes u.id) ++ [trackId])
      refine ⟨_, by rw [hres2], rfl, ?_, ?_, ?_, ?_, ?_⟩
      · rw [Bool.eq_false_iff.mpr (fun hb => hc ((contains_eq _ _).mp hb))]
        rfl
      · rw [hres2]
      · intro x
        rw [hset]
        by_cases hx : x = trackId
        · subst hx
          simp [List.mem_append, mem_listToSet, hc]
        · simp only [if_neg hx]
          rw [List.mem_append, mem_listToSet]
          simp [hx]
      · rw [hres2]
      · rw [hres2]
  · intro track hfind hvis hu
    have hvis' : isTrackVisibleToUser track none = true := by
      rw [hu] at hvis
      exact hvis
    have hres : apiLikeTrack trackId raw db s =
        (let g := listToSet s.guestLikes
         if g.contains trackId then
           let s' := { s with guestLikes := g.filter (fun x => !(x == trackId)) }
           ((db, s'), .ok { liked := false, likes := s'.guestLikes, guest := true })
         else
           let s' := { s with guestLikes := g ++ [trackId] }
           ((db, s'), .ok { liked := true, likes := s'.guestLikes, guest := true })) := by
      simp only [apiLikeTrack, hfind, hu, hvis']
      rfl
    by_cases hc : trackId ∈ s.guestLikes
    · have hcb : (listToSet s.guestLikes).contains trackId = true := by
        rw [contains_listToSet]
        exact (contains_eq _ _).mpr hc
      have hres2 : apiLikeTrack trackId raw db s =
          ((db, { s with guestLikes := (listToSet s.guestLikes).filter (fun x => !(x == trackId)) }),
           .ok { liked := false
                 likes := (listToSet s.guestLikes).filter (fun x => !(x == trackId))
                 guest := true }) :=
        hres.trans (by simp only [hcb, if_true])
      refine ⟨_, by rw [hres2], rfl, ?_, ?_, ?_, ?_⟩
      · rw [(contains_eq _ _).mpr hc]
        rfl
      · rw [hres2]
      · intro x
        by_cases hx : x = trackId
        · subst hx
          simp [List.mem_filter, hc]
        · simp only [if_neg hx]
          rw [List.mem_filter, mem_listToSet]
          simp [hx]
      · rw [hres2]
    · have hcb : (listToSet s.guestLikes).contains trackId = false := by
        rw [contains_listToSet]
        exact Bool.eq_false_iff.mpr (fun hb => hc ((contains_eq _ _).mp hb))
      have hres2 : apiLikeTrack trackId raw db s =
          ((db, { s with guestLikes := listToSet s.guestLikes ++ [trackId] }),
           .ok { liked := true
                 likes := listToSet s.guestLikes ++ [trackId]
                 guest := true }) :=
        hres.trans (by simp only [hcb, Bool.false_eq_true, if_false])
      refine ⟨_, by rw [hres2], rfl, ?_, ?_, ?_, ?_⟩
      · rw [Bool.eq_false_iff.mpr (fun hb => hc ((contains_eq _ _).mp hb))]
        rfl
      · rw [hres2]
      · intro x
        by_cases hx : x = trackId
        · subst hx
          simp [List.mem_append, mem_listToSet, hc]
        · simp only [if_neg hx]
          rw [List.mem_append, mem_listToSet]
          simp [hx]
      · rw [hres2]

/-- C5 witness: the spec scenario — a guest liking the published track `t1`
in a fresh session gets `{ok, liked: true, likes: ["t1"], guest: true}`. -/
theorem apiLikeTrack_spec_w :
    (apiLikeTrack "t1" [{ baseTrack "t1" with status := some "published" }]
      { users := [], userLikes := [] } emptySession).2 =
      Except.ok { liked := true, likes := ["t1"], guest := true } := by
  obtain ⟨resp, hok, hg, hl, hlikes, -, -⟩ :=
    (apiLikeTrack_spec "t1"
      [{ baseTrack "t1" with status := some "published" }]
      { users := [], userLikes := [] } emptySession).2.2.2
      (normalizeTrack { baseTrack "t1" with status := some "published" })
      (by decide) (by decide) (by decide)
  have h1 : resp.liked = true := by rw [hl]; decide
  have h2 : resp.likes = ["t1"] := by rw [hlikes]; decide
  have hre : resp = { liked := resp.liked, likes := resp.likes, guest := resp.guest } := rfl
  rw [hok, hre, h1, h2, hg]

theorem mergeGuest_session_fields (s : Session) (uid : String)
    (m : List (String × List String)) :
    (mergeGuestLikesIntoUser s uid m).1.oauthNext = s.oauthNext ∧
    (mergeGuestLikesIntoUser s uid m).1.oauthStates = s.oauthStates ∧
    (mergeGuestLikesIntoUser s uid m).1.userId = s.userId := by
  rw [mergeGuestLikesIntoUser]
  by_cases h : s.guestLikes.isEmpty <;> simp [h]

theorem alookup_eq_none_of_not_mem_keys {α : Type} (l : List (String × α))
    (k : String) (h : k ∉ l.map Prod.fst) : alookup l k = none := by
  induction l with
  | nil => rfl
  | cons p rest ih =>
    rw [alookup]
    have hk : p.1 ≠ k := by
      intro he
      exact h (by simp [he.symm])
    rw [if_neg (by simpa using hk)]
    exact ih (fun hm => h (by simp at hm ⊢; exact Or.inr hm))

theorem alookup_aerase_self {α : Type} (l : List (String × α)) (k : String)
    (hnd : (l.map Prod.fst).Nodup) : alookup (aerase l k) k = none := by
  induction l with
  | nil => rfl
  | cons p rest ih =>
    rw [List.map_cons, List.nodup_cons] at hnd
    rw [aerase]
    by_cases hp : (p.1 == k) = true
    · rw [if_pos hp]
      have hpk : p.1 = k := by simpa using hp
      exact alookup_eq_none_of_not_mem_keys rest k (hpk ▸ hnd.1)
    · rw [if_neg hp, alookup, if_neg hp]
      exact ih hnd.2

theorem consumeOauthNext_of_none (s : Session) (p : String)
    (h : alookup s.oauthNext p = none) : (consumeOauthNext s p).1 = "/" := by
  show sanitizeNextUrl
    (if truthyS (alookup s.oauthNext p) then alookup s.oauthNext p
     else some "/") = "/"
  rw [h]
  decide

/-- C3 counterexample: a successful OAuth callback does not delete the
session's stored `state` entry, and a second callback presenting the same
`state` value passes the state check and succeeds again, contradicting the
claim that both `state` and `next` are single-use and that a replay of the
same state is rejected. -/
theorem oauthCallback_state_reuse :
    oauthCallback "google" (some "st1") (some "c")
        { providerId := "g9", email := some "e@x", displayName := some "N", avatar := none } "t1" "u1"
        { users := [], userLikes := [] }
        { userId := none, guestLikes := [], oauthStates := [("google", "st1")], oauthNext := [("google", "/lib")] } =
      Except.ok
        ({ users := [newOauthUser "google" "g9" (some "e@x") (some "N") none "t1" "u1"], userLikes := [("u1", [])] },
         { userId := some "u1", guestLikes := [], oauthStates := [("google", "st1")], oauthNext := [] },
         "/lib") ∧
    alookup ({ userId := some "u1", guestLikes := [], oauthStates := [("google", "st1")], oauthNext := [] } : Session).oauthStates "google" = some "st1" ∧
    checkOauthState
      { userId := some "u1", guestLikes := [], oauthStates := [("google", "st1")], oauthNext := [] }
      "google" (some "st1") = true ∧
    (oauthCallback "google" (some "st1") (some "c")
        { providerId := "g9", email := some "e@x", displayName := some "N", avatar := none } "t2" "u2"
        { users := [newOauthUser "google" "g9" (some "e@x") (some "N") none "t1" "u1"], userLikes := [("u1", [])] }
        { userId := some "u1", guestLikes := [], oauthStates := [("google", "st1")], oauthNext := [] }).isOk
      = true := by
  refine ⟨by decide, by decide, by decide, by decide⟩

/-- C3 amended: only the `next` redirect target is single-use — a successful
callback deletes the provider's `oauthNext` entry, so its stored value is
gone and a subsequent consume yields `/`; the provider's `state` entry
survives the callback unchanged, so a second callback presenting the same
state is not rejected by the state check. The lookup claim assumes the
session's `next` map has JS-object key uniqueness. -/
theorem oauthCallback_next_single_use (provider : String)
    (qstate qcode : Option String) (profile : OauthProfile) (now fid : String)
    (db : Db) (s : Session) (db' : Db) (s' : Session) (target : String)
    (hnd : (s.oauthNext.map Prod.fst).Nodup)
    (h : oauthCallback provider qstate qcode profile now fid db s =
      Except.ok (db', s', target)) :
    alookup s'.oauthNext provider = none ∧
    s'.oauthStates = s.oauthStates ∧
    (consumeOauthNext s' provider).1 = "/" := by
  rw [oauthCallback] at h
  by_cases h1 : checkOauthState s provider qstate = true
  · rw [h1] at h
    simp only [Bool.not_true, Bool.false_eq_true, if_false] at h
    by_cases h2 : truthyS qcode = true
    · rw [h2] at h
      simp only [Bool.not_true, Bool.false_eq_true, if_false] at h
      injection h with h3
      set U := upsertOauthUser provider profile.providerId profile.email
        profile.displayName profile.avatar now fid db with hU
      set S1 : Session := { s with userId := some U.2.id } with hS1
      set M := mergeGuestLikesIntoUser S1 U.2.id U.1.userLikes with hM
      have hs' : s' = (consumeOauthNext M.1 provider).2 :=
        (congrArg (fun p => p.2.1) h3).symm
      have hmn : M.1.oauthNext = s.oauthNext :=
        (mergeGuest_session_fields S1 U.2.id U.1.userLikes).1
      have hlook : alookup s'.oauthNext provider = none := by
        rw [hs']
        show alookup (aerase M.1.oauthNext provider) provider = none
        rw [hmn]
        exact alookup_aerase_self _ _ hnd
      refine ⟨hlook, ?_, consumeOauthNext_of_none s' provider hlook⟩
      rw [hs']
      exact (mergeGuest_session_fields S1 U.2.id U.1.userLikes).2.1
    · rw [Bool.eq_false_iff.mpr h2] at h
      simp at h
  · rw [Bool.eq_false_iff.mpr h1] at h
    simp at h

/-- C3 amended-claim witness: at the concrete callback of the counterexample
scenario the `next` entry is gone afterwards while the state map is
untouched. -/
theorem oauthCallback_next_single_use_w :
    alookup ({ userId := some "u1", guestLikes := [], oauthStates := [("google", "st1")], oauthNext := [] } : Session).oauthNext "google" = none ∧
    ({ userId := some "u1", guestLikes := [], oauthStates := [("google", "st1")], oauthNext := [] } : Session).oauthStates =
      ({ userId := none, guestLikes := [], oauthStates := [("google", "st1")], oauthNext := [("google", "/lib")] } : Session).oauthStates := by
  have h := oauthCallback_next_single_use "google" (some "st1") (some "c")
    { providerId := "g9", email := some "e@x", displayName := some "N", avatar := none } "t1" "u1"
    { users := [], userLikes := [] }
    { userId := none, guestLikes := [], oauthStates := [("google", "st1")], oauthNext := [("google", "/lib")] }
    { users := [newOauthUser "google" "g9" (some "e@x") (some "N") none "t1" "u1"], userLikes := [("u1", [])] }
    { userId := some "u1", guestLikes := [], oauthStates := [("google", "st1")], oauthNext := [] }
    "/lib" (by decide) (by decide)
  exact ⟨h.1, h.2.1⟩

/-- C1: `upsertOauthUser` resolves in this order: (a) the first existing user
matching `(provider, providerId)` as primary identity or through
`oauthLinks[provider]` — its top-level `email`/`displayName`/`avatar` are
overwritten by the incoming values (an incoming value always wins when one is
given, i.e. JS-truthy, regardless of what was stored) and its
`oauthLinks[provider]` metadata takes the new values; (b) otherwise, with a
non-empty normalized email, the first user with that normalized email (any
provider) — a fresh `oauthLinks[provider]` entry with the new metadata is
attached to it while its top-level fields are only filled if previously
empty; (c) otherwise a freshly created user with role `user`. On (a) and (b)
no user is added or removed. -/
theorem upsertOauthUser_spec (provider pid : String)
    (email displayName avatar : Option String) (now fid : String) (db : Db) :
    (∀ u₀, db.users.find? (directMatch provider pid) = some u₀ →
      (upsertOauthUser provider pid email displayName avatar now fid db).2.id
          = u₀.id ∧
      (upsertOauthUser provider pid email displayName avatar now fid db).2.role
          = u₀.role ∧
      (upsertOauthUser provider pid email displayName avatar now fid db).2.email
          = jsOr email u₀.email ∧
      (upsertOauthUser provider pid email displayName avatar now fid db).2.displayName
          = jsOr displayName u₀.displayName ∧
      (upsertOauthUser provider pid email displayName avatar now fid db).2.avatar
          = jsOr avatar u₀.avatar ∧
      (∃ link,
        alookup (upsertOauthUser provider pid email displayName avatar now fid
            db).2.oauthLinks provider = some link ∧
        link.providerId = pid ∧
        (truthyS email = true → link.email = email) ∧
        (truthyS avatar = true → link.avatar = avatar) ∧
        link.lastLoginAt = some now) ∧
      (upsertOauthUser provider pid email displayName avatar now fid
          db).1.users.map User.id = db.users.map User.id ∧
      (upsertOauthUser provider pid email displayName avatar now fid
          db).1.userLikes = db.userLikes) ∧
    (db.users.find? (directMatch provider pid) = none →
      ∀ u₁, normalizeEmail email ≠ "" →
      findUserByEmailAnyProvider (some (normalizeEmail email)) db.users
          = some u₁ →
      (upsertOauthUser provider pid email displayName avatar now fid db).2.id
          = u₁.id ∧
      (upsertOauthUser provider pid email displayName avatar now fid db).2.role
          = u₁.role ∧
      (upsertOauthUser provider pid email displayName avatar now fid db).2.email
          = jsOr u₁.email (jsOr email none) ∧
      (upsertOauthUser provider pid email displayName avatar now fid db).2.displayName
          = jsOr u₁.displayName (jsOr displayName u₁.displayName) ∧
      (upsertOauthUser provider pid email displayName avatar now fid db).2.avatar
          = jsOr u₁.avatar (jsOr avatar u₁.avatar) ∧
      alookup (upsertOauthUser provider pid email displayName avatar now fid
          db).2.oauthLinks provider =
        some { providerId := pid, email := jsOr email (jsOr u₁.email none), avatar := jsOr avatar (jsOr u₁.avatar none), linkedAt := some now, lastLoginAt := some now } ∧
      (upsertOauthUser provider pid email displayName avatar now fid
          db).1.users.map User.id = db.users.map User.id) ∧
    (db.users.find? (directMatch provider pid) = none →
      (normalizeEmail email = "" ∨
       findUserByEmailAnyProvider (some (normalizeEmail email)) db.users = none) →
      (upsertOauthUser provider pid email displayName avatar now fid db).2
          = newOauthUser provider pid email displayName avatar now fid ∧
      (upsertOauthUser provider pid email displayName avatar now fid db).2.role
          = "user" ∧
      (upsertOauthUser provider pid email displayName avatar now fid db).2.id
          = fid ∧
      (upsertOauthUser provider pid email displayName avatar now fid
          db).1.users = db.users ++
            [(upsertOauthUser provider pid email displayName avatar now fid db).2]) := by
  refine ⟨?_, ?_, ?_⟩
  · intro u₀ h
    have hr : upsertOauthUser provider pid email displayName avatar now fid db =
        ({ db with users := updateFirst (directMatch provider pid) (refreshDirect provider pid email displayName avatar now) db.users },
         refreshDirect provider pid email displayName avatar now u₀) := by
      simp only [upsertOauthUser, h]
    rw [hr]
    refine ⟨rfl, rfl, rfl, rfl, rfl, ?_, ?_, rfl⟩
    · refine ⟨_, alookup_aset_self u₀.oauthLinks provider _, rfl, ?_, ?_, rfl⟩
      · intro he
        simp only [he, if_true]
      · intro ha
        simp only [ha, if_true]
    · exact map_updateFirst _ _ _ _ (fun a => rfl)
  · intro hfind u₁ hne hbe
    have hr : upsertOauthUser provider pid email displayName avatar now fid db =
        ({ users := updateFirst (fun u => normalizeEmail u.email == normalizeEmail (some (normalizeEmail email))) (attachByEmail provider pid email displayName avatar now) db.users, userLikes := ensureLikes db.userLikes u₁.id },
         attachByEmail provider pid email displayName avatar now u₁) := by
      simp only [upsertOauthUser, hfind, beq_eq_false_iff_ne.mpr hne,
        Bool.false_eq_true, if_false, hbe]
    rw [hr]
    refine ⟨rfl, rfl, rfl, rfl, rfl, ?_, ?_⟩
    · exact alookup_aset_self u₁.oauthLinks provider _
    · exact map_updateFirst _ _ _ _ (fun a => rfl)
  · intro hfind hc
    have hr : upsertOauthUser provider pid email displayName avatar now fid db =
        ({ users := db.users ++ [newOauthUser provider pid email displayName avatar now fid], userLikes := ensureLikes db.userLikes fid },
         newOauthUser provider pid email displayName avatar now fid) := by
      rcases hc with hc | hc
      · simp only [upsertOauthUser, hfind, hc]
        rfl
      · by_cases hne : (normalizeEmail email == "") = true
        · simp only [upsertOauthUser, hfind, hne, if_true]
        · simp only [upsertOauthUser, hfind, Bool.eq_false_iff.mpr hne,
            Bool.false_eq_true, if_false, hc]
    rw [hr]
    exact ⟨rfl, rfl, rfl, rfl⟩

/-- C1 witness: with no existing users and no email, a concrete upsert takes
path (c): it creates the fresh user, with role `user` and the fresh id. -/
theorem upsertOauthUser_spec_w :
    (upsertOauthUser "google" "g1" none none none "t0" "u9"
      { users := [], userLikes := [] }).2
      = newOauthUser "google" "g1" none none none "t0" "u9" ∧
    (upsertOauthUser "google" "g1" none none none "t0" "u9"
      { users := [], userLikes := [] }).2.role = "user" ∧
    (upsertOauthUser "google" "g1" none none none "t0" "u9"
      { users := [], userLikes := [] }).2.id = "u9" := by
  have h := (upsertOauthUser_spec "google" "g1" none none none "t0" "u9"
    { users := [], userLikes := [] }).2.2 (by decide) (Or.inl (by decide))
  exact ⟨h.1, h.2.1, h.2.2.1⟩

theorem countP_updateFirst_le {α : Type} (q : α → Bool) (f : α → α)
    (P : α → Bool) (l : List α)
    (h : ∀ a, q a = true → P (f a) = true → P a = true) :
    (updateFirst q f l).countP P ≤ l.countP P := by
  induction l with
  | nil => simp [updateFirst]
  | cons x xs ih =>
    rw [updateFirst]
    by_cases hq : q x = true
    · rw [if_pos hq, List.countP_cons, List.countP_cons]
      have hle : (if P (f x) = true then 1 else 0) ≤
          (if P x = true then 1 else 0) := by
        by_cases hPf : P (f x) = true
        · rw [if_pos hPf, if_pos (h x hq hPf)]
        · rw [if_neg hPf]
          exact Nat.zero_le _
      exact Nat.add_le_add (Nat.le_refl _) hle
    · rw [if_neg hq, List.countP_cons, List.countP_cons]
      exact Nat.add_le_add ih (Nat.le_refl _)

theorem countP_updateFirst_le_succ {α : Type} (q : α → Bool) (f : α → α)
    (P : α → Bool) (l : List α) :
    (updateFirst q f l).countP P ≤ l.countP P + 1 := by
  induction l with
  | nil => simp [updateFirst]
  | cons x xs ih =>
    rw [updateFirst]
    by_cases hq : q x = true
    · rw [if_pos hq, List.countP_cons, List.countP_cons]
      have h1 : (if P (f x) = true then 1 else 0) ≤ 1 := by
        by_cases hPf : P (f x) = true <;> simp [hPf]
      have h2 : (0 : Nat) ≤ (if P x = true then 1 else 0) := Nat.zero_le _
      omega
    · rw [if_neg hq, List.countP_cons, List.countP_cons]
      omega

theorem directMatch_of_hasIdentity (p pid : String) (u : User)
    (h : hasIdentity p pid u = true) : directMatch p pid u = true := by
  rw [hasIdentity, Bool.or_eq_true, Bool.and_eq_true] at h
  rw [directMatch, Bool.or_eq_true, Bool.and_eq_true]
  rcases h with ⟨h1, h2⟩ | h3
  · left
    refine ⟨h1, ?_⟩
    have : u.providerId = some pid := by simpa using h2
    rw [this]
    simp [pidString]
  · right
    exact h3

theorem hasIdentity_of_directMatch (p pid : String) (u : User)
    (hpid : pid ≠ "undefined")
    (h : directMatch p pid u = true) : hasIdentity p pid u = true := by
  rw [directMatch, Bool.or_eq_true, Bool.and_eq_true] at h
  rw [hasIdentity, Bool.or_eq_true, Bool.and_eq_true]
  rcases h with ⟨h1, h2⟩ | h3
  · left
    refine ⟨h1, ?_⟩
    have h2' : pidString u.providerId = pid := by simpa using h2
    cases hp : u.providerId with
    | none =>
      rw [hp] at h2'
      exact absurd h2'.symm hpid
    | some x =>
      rw [hp] at h2'
      simp only [pidString, Option.getD_some] at h2'
      rw [h2']
      simp
  · right
    exact h3

theorem hasIdentity_refreshDirect (provider pid : String)
    (email displayName avatar : Option String) (now : String) (u : User)
    (p' pid' : String)
    (h : hasIdentity p' pid'
      (refreshDirect provider pid email displayName avatar now u) = true) :
    (p' = provider ∧ pid' = pid) ∨ hasIdentity p' pid' u = true := by
  rw [hasIdentity, Bool.or_eq_true, Bool.and_eq_true] at h
  have hprov : (refreshDirect provider pid email displayName avatar now u).provider
      = u.provider := rfl
  have hpid2 : (refreshDirect provider pid email displayName avatar now u).providerId
      = u.providerId := rfl
  rcases h with ⟨h1, h2⟩ | h3
  · right
    rw [hasIdentity, Bool.or_eq_true, Bool.and_eq_true]
    exact Or.inl ⟨hprov ▸ h1, hpid2 ▸ h2⟩
  · by_cases hp : p' = provider
    · subst hp
      have hlk : alookup (refreshDirect p' pid email displayName avatar now
          u).oauthLinks p' = some
          { providerId := pid
            email := if truthyS email then email
              else ((alookup u.oauthLinks p').getD { providerId := pid, email := none, avatar := none, linkedAt := none, lastLoginAt := none }).email
            avatar := if truthyS avatar then avatar
              else ((alookup u.oauthLinks p').getD { providerId := pid, email := none, avatar := none, linkedAt := none, lastLoginAt := none }).avatar
            lastLoginAt := some now
            linkedAt := if truthyS ((alookup u.oauthLinks p').getD { providerId := pid, email := none, avatar := none, linkedAt := none, lastLoginAt := none }).linkedAt
              then ((alookup u.oauthLinks p').getD { providerId := pid, email := none, avatar := none, linkedAt := none, lastLoginAt := none }).linkedAt
              else some now } :=
        alookup_aset_self u.oauthLinks p' _
      rw [hlk] at h3
      have : pid = pid' := by simpa using h3
      exact Or.inl ⟨rfl, this.symm⟩
    · have hlk : alookup (refreshDirect provider pid email displayName avatar
          now u).oauthLinks p' = alookup u.oauthLinks p' :=
        alookup_aset_other u.oauthLinks provider p' _ hp
      rw [hlk] at h3
      right
      rw [hasIdentity, Bool.or_eq_true]
      exact Or.inr h3

theorem hasIdentity_attachByEmail (provider pid : String)
    (email displayName avatar : Option String) (now : String) (u : User)
    (p' pid' : String)
    (h : hasIdentity p' pid'
      (attachByEmail provider pid email displayName avatar now u) = true) :
    (p' = provider ∧ pid' = pid) ∨ hasIdentity p' pid' u = true := by
  rw [hasIdentity, Bool.or_eq_true, Bool.and_eq_true] at h
  have hprov : (attachByEmail provider pid email displayName avatar now u).provider
      = u.provider := rfl
  have hpid2 : (attachByEmail provider pid email displayName avatar now u).providerId
      = u.providerId := rfl
  rcases h with ⟨h1, h2⟩ | h3
  · right
    rw [hasIdentity, Bool.or_eq_true, Bool.and_eq_true]
    exact Or.inl ⟨hprov ▸ h1, hpid2 ▸ h2⟩
  · by_cases hp : p' = provider
    · subst hp
      have hlk : alookup (attachByEmail p' pid email displayName avatar now
          u).oauthLinks p' = some
          { providerId := pid
            email := jsOr email (jsOr u.email none)
            avatar := jsOr avatar (jsOr u.avatar none)
            linkedAt := some now
            lastLoginAt := some now } :=
        alookup_aset_self u.oauthLinks p' _
      rw [hlk] at h3
      have : pid = pid' := by simpa using h3
      exact Or.inl ⟨rfl, this.symm⟩
    · have hlk : alookup (attachByEmail provider pid email displayName avatar
          now u).oauthLinks p' = alookup u.oauthLinks p' :=
        alookup_aset_other u.oauthLinks provider p' _ hp
      rw [hlk] at h3
      right
      rw [hasIdentity, Bool.or_eq_true]
      exact Or.inr h3

theorem hasIdentity_newOauthUser (provider pid : String)
    (email displayName avatar : Option String) (now fid : String)
    (p' pid' : String) :
    hasIdentity p' pid'
      (newOauthUser provider pid email displayName avatar now fid) = true ↔
    (p' = provider ∧ pid' = pid) := by
  constructor
  · intro h
    rw [hasIdentity, Bool.or_eq_true, Bool.and_eq_true] at h
    rcases h with ⟨h1, h2⟩ | h3
    · have hp : provider = p' := by simpa [newOauthUser] using h1
      have hd : pid = pid' := by simpa [newOauthUser] using h2
      exact ⟨hp.symm, hd.symm⟩
    · by_cases hp : provider = p'
      · have hd : pid = pid' := by
          simpa [newOauthUser, alookup, hp] using h3
        exact ⟨hp.symm, hd.symm⟩
      · have : alookup (newOauthUser provider pid email displayName avatar now
            fid).oauthLinks p' = none := by
          simp only [newOauthUser, alookup]
          rw [if_neg (by simpa using hp)]
        rw [this] at h3
        simp at h3
  · rintro ⟨rfl, rfl⟩
    rw [hasIdentity, Bool.or_eq_true]
    right
    simp [newOauthUser, alookup]

theorem upsertOauthUser_pairUnique (provider pid : String)
    (email displayName avatar : Option String) (now fid : String) (db : Db)
    (hpid : pid ≠ "undefined") (h : PairUnique db.users) :
    PairUnique ((upsertOauthUser provider pid email displayName avatar now fid
      db).1.users) := by
  intro p' pid'
  rcases hfind : db.users.find? (directMatch provider pid) with _ | u₀
  · -- no direct match: path (b) or (c)
    have hnone : ∀ u ∈ db.users, ¬ directMatch provider pid u = true := by
      intro u hu
      exact List.find?_eq_none.mp hfind u hu
    have hzero : p' = provider → pid' = pid →
        db.users.countP (hasIdentity p' pid') = 0 := by
      intro hp hd
      subst hp
      subst hd
      apply List.countP_eq_zero.mpr
      intro u hu hid
      exact hnone u hu (directMatch_of_hasIdentity _ _ _ hid)
    have happend : ∀ htail : (upsertOauthUser provider pid email displayName
          avatar now fid db).1.users = db.users ++
            [newOauthUser provider pid email displayName avatar now fid],
        (upsertOauthUser provider pid email displayName avatar now fid
          db).1.users.countP (hasIdentity p' pid') ≤ 1 := by
      intro htail
      rw [htail, List.countP_append]
      by_cases hpp : p' = provider ∧ pid' = pid
      · rw [hzero hpp.1 hpp.2]
        have h1 : ([newOauthUser provider pid email displayName avatar now
            fid].countP (hasIdentity p' pid')) ≤ 1 := by
          rw [List.countP_cons, List.countP_nil]
          by_cases hx : hasIdentity p' pid' (newOauthUser provider pid email
            displayName avatar now fid) = true <;> simp [hx]
        omega
      · have h1 : ([newOauthUser provider pid email displayName avatar now
            fid].countP (hasIdentity p' pid')) = 0 := by
          apply List.countP_eq_zero.mpr
          intro u hu hid
          rcases List.mem_singleton.mp hu with rfl
          exact hpp ((hasIdentity_newOauthUser provider pid email displayName
            avatar now fid p' pid').mp hid)
        have h2 := h p' pid'
        omega
    by_cases hne : (normalizeEmail email == "") = true
    · exact happend (by simp only [upsertOauthUser, hfind, hne, if_true])
    · rcases hbe : findUserByEmailAnyProvider (some (normalizeEmail email))
        db.users with _ | u₁
      · exact happend (by simp only [upsertOauthUser, hfind,
          Bool.eq_false_iff.mpr hne, Bool.false_eq_true, if_false, hbe])
      · -- path (b): attach to the email-matched user
        have hr : (upsertOauthUser provider pid email displayName avatar now
            fid db).1.users = updateFirst
              (fun u => normalizeEmail u.email ==
                normalizeEmail (some (normalizeEmail email)))
              (attachByEmail provider pid email displayName avatar now)
              db.users := by
          simp only [upsertOauthUser, hfind, Bool.eq_false_iff.mpr hne,
            Bool.false_eq_true, if_false, hbe]
        rw [hr]
        by_cases hpp : p' = provider ∧ pid' = pid
        · have h0 := hzero hpp.1 hpp.2
          have h1 := countP_updateFirst_le_succ
            (fun u => normalizeEmail u.email ==
              normalizeEmail (some (normalizeEmail email)))
            (attachByEmail provider pid email displayName avatar now)
            (hasIdentity p' pid') db.users
          omega
        · refine Nat.le_trans (countP_updateFirst_le _ _ _ _ ?_) (h p' pid')
          intro a _ hPf
          rcases hasIdentity_attachByEmail provider pid email displayName
            avatar now a p' pid' hPf with hpair | hold
          · exact absurd hpair hpp
          · exact hold
  · -- path (a): refresh the directly matched user
    have hr : (upsertOauthUser provider pid email displayName avatar now fid
        db).1.users = updateFirst (directMatch provider pid)
          (refreshDirect provider pid email displayName avatar now)
          db.users := by
      simp only [upsertOauthUser, hfind]
    rw [hr]
    refine Nat.le_trans (countP_updateFirst_le _ _ _ _ ?_) (h p' pid')
    intro a hq hPf
    rcases hasIdentity_refreshDirect provider pid email displayName avatar now
      a p' pid' hPf with ⟨hp1, hp2⟩ | hold
    · subst hp1
      subst hp2
      exact hasIdentity_of_directMatch _ _ _ hpid hq
    · exact hold

theorem registerLocal_ok_users (emailRaw displayName password password2 : Option String)
    (pwHash fid now : String) (db : Db) (s : Session) (db' : Db) (s' : Session)
    (h : registerLocal emailRaw displayName password password2 pwHash fid now
      db s = Except.ok (db', s')) :
    ∃ nu : User,
      db'.users = db.users ++ [nu] ∧
      nu.provider = "local" ∧ nu.providerId = none ∧
      nu.oauthLinks = [] ∧
      nu.email = some (normalizeEmail emailRaw) ∧
      findUserByEmailAnyProvider (some (normalizeEmail emailRaw)) db.users
        = none := by
  simp only [registerLocal] at h
  split at h
  · exact absurd h (by simp)
  · split at h
    · exact absurd h (by simp)
    · split at h
      · exact absurd h (by simp)
      · split at h
        · exact absurd h (by simp)
        · next hdup =>
          injection h with h3
          have husers := congrArg (fun p : Db × Session => p.1.users) h3
          exact ⟨_, husers.symm, rfl, rfl, rfl, rfl, hdup⟩

theorem registerLocal_pairUnique (emailRaw displayName password password2 : Option String)
    (pwHash fid now : String) (db : Db) (s : Session) (db' : Db) (s' : Session)
    (h : registerLocal emailRaw displayName password password2 pwHash fid now
      db s = Except.ok (db', s'))
    (hP : PairUnique db.users) : PairUnique db'.users := by
  obtain ⟨nu, husers, hprov, hpidn, hlinks, hemail, hdup⟩ :=
    registerLocal_ok_users emailRaw displayName password password2 pwHash fid
      now db s db' s' h
  intro p pid
  rw [husers, List.countP_append]
  have h0 : ([nu].countP (hasIdentity p pid)) = 0 := by
    apply List.countP_eq_zero.mpr
    intro u hu hid
    rcases List.mem_singleton.mp hu with rfl
    rw [hasIdentity, Bool.or_eq_true, Bool.and_eq_true, hpidn, hlinks] at hid
    rcases hid with ⟨-, h2⟩ | h3
    · simp at h2
    · simp [alookup] at h3
  have h1 := hP p pid
  omega

theorem registerLocal_emailUnique (emailRaw displayName password password2 : Option String)
    (pwHash fid now : String) (db : Db) (s : Session) (db' : Db) (s' : Session)
    (h : registerLocal emailRaw displayName password password2 pwHash fid now
      db s = Except.ok (db', s'))
    (hE : LocalEmailUnique db.users) : LocalEmailUnique db'.users := by
  obtain ⟨nu, husers, hprov, hpidn, hlinks, hemail, hdup⟩ :=
    registerLocal_ok_users emailRaw displayName password password2 pwHash fid
      now db s db' s' h
  intro e he
  rw [husers, List.countP_append]
  rw [findUserByEmailAnyProvider] at hdup
  by_cases h4 : (normalizeEmail (some (normalizeEmail emailRaw)) == "") = true
  · -- the doubly-normalized email is empty: the new user cannot match e ≠ ""
    have h1 : ([nu].countP
        (fun u => u.provider == "local" && normalizeEmail u.email == e)) = 0 := by
      apply List.countP_eq_zero.mpr
      intro u hu hp
      rcases List.mem_singleton.mp hu with rfl
      rw [Bool.and_eq_true, hemail] at hp
      have h5 : normalizeEmail (some (normalizeEmail emailRaw)) = e := by
        simpa using hp.2
      have h6 : normalizeEmail (some (normalizeEmail emailRaw)) = "" := by
        simpa using h4
      exact he (h5 ▸ h6)
    have h2 := hE e he
    omega
  · have hfind0 : db.users.find? (fun u => normalizeEmail u.email ==
        normalizeEmail (some (normalizeEmail emailRaw))) = none := by
      simpa [Bool.eq_false_iff.mpr h4] using hdup
    have hnomatch : ∀ u ∈ db.users, ¬ (normalizeEmail u.email =
        normalizeEmail (some (normalizeEmail emailRaw))) := by
      intro u hu hc
      have := List.find?_eq_none.mp hfind0 u hu
      exact this (by simpa using hc)
    by_cases h3 : e = normalizeEmail (some (normalizeEmail emailRaw))
    · -- new user's email class: no old user matched it
      have h0 : db.users.countP
          (fun u => u.provider == "local" && normalizeEmail u.email == e) = 0 := by
        apply List.countP_eq_zero.mpr
        intro u hu hp
        rw [Bool.and_eq_true] at hp
        exact hnomatch u hu (by rw [← h3]; simpa using hp.2)
      have h1 : ([nu].countP
          (fun u => u.provider == "local" && normalizeEmail u.email == e)) ≤ 1 := by
        rw [List.countP_cons, List.countP_nil]
        by_cases hx : (nu.provider == "local" && normalizeEmail nu.email == e)
          = true <;> simp [hx]
      omega
    · -- a different email class: the new user does not match
      have h1 : ([nu].countP
          (fun u => u.provider == "local" && normalizeEmail u.email == e)) = 0 := by
        apply List.countP_eq_zero.mpr
        intro u hu hp
        rcases List.mem_singleton.mp hu with rfl
        rw [Bool.and_eq_true, hemail] at hp
        have h5 : normalizeEmail (some (normalizeEmail emailRaw)) = e := by
          simpa using hp.2
        exact h3 h5.symm
      have h2 := hE e he
      omega

/-- C2 (amended): `upsertOauthUser` preserves the `(provider, providerId)`
half of the uniqueness invariant whenever the stringified provider id is not
the literal `"undefined"` (the JS stringification of an absent id); local
registration preserves both the pair half and the local-email half. The
local-email half is NOT preserved by `upsertOauthUser` in general (see the
counterexample): a direct-match login may overwrite a linked local user's
email with one already held by another local user. -/
theorem userUniqueness_spec :
    (∀ (provider pid : String) (email displayName avatar : Option String)
        (now fid : String) (db : Db),
      pid ≠ "undefined" → PairUnique db.users →
      PairUnique ((upsertOauthUser provider pid email displayName avatar now
        fid db).1.users)) ∧
    (∀ (emailRaw displayName password password2 : Option String)
        (pwHash fid now : String) (db : Db) (s : Session) (db' : Db)
        (s' : Session),
      registerLocal emailRaw displayName password password2 pwHash fid now db s
          = Except.ok (db', s') →
      (PairUnique db.users → PairUnique db'.users) ∧
      (LocalEmailUnique db.users → LocalEmailUnique db'.users)) := by
  constructor
  · intro provider pid email displayName avatar now fid db hpid hP
    exact upsertOauthUser_pairUnique provider pid email displayName avatar now
      fid db hpid hP
  · intro emailRaw displayName password password2 pwHash fid now db s db' s' h
    exact ⟨fun hP => registerLocal_pairUnique emailRaw displayName password
        password2 pwHash fid now db s db' s' h hP,
      fun hE => registerLocal_emailUnique emailRaw displayName password
        password2 pwHash fid now db s db' s' h hE⟩

/-- C2 counterexample: a store holding a local user `a@x` with a Google link
`g1` and a second local user `b@x` satisfies the full uniqueness invariant,
yet a Google login for `g1` arriving with email `b@x` (path (a)) overwrites
the linked user's email and leaves two local records with normalized email
`b@x` — the invariant is not preserved by `upsertOauthUser` as claimed. -/
theorem upsertOauthUser_email_unique_cex :
    PairUnique [cexUserLinked, cexUserPlain] ∧
    LocalEmailUnique [cexUserLinked, cexUserPlain] ∧
    ¬ LocalEmailUnique ((upsertOauthUser "google" "g1" (some "b@x") (some "N")
        none "t1" "u9"
        { users := [cexUserLinked, cexUserPlain], userLikes := [] }).1.users) := by
  refine ⟨?_, ?_, ?_⟩
  · intro p pid
    rw [List.countP_cons, List.countP_cons, List.countP_nil]
    have h2 : hasIdentity p pid cexUserPlain = false := by
      rw [hasIdentity]
      simp [cexUserPlain, baseUser, alookup]
    rw [h2]
    by_cases h1 : hasIdentity p pid cexUserLinked = true <;> simp [h1]
  · intro e he
    rw [List.countP_cons, List.countP_cons, List.countP_nil]
    by_cases h1 : e = "a@x"
    · subst h1
      have hL2 : (cexUserPlain.provider == "local" &&
          normalizeEmail cexUserPlain.email == "a@x") = false := by decide
      rw [hL2]
      by_cases hx : (cexUserLinked.provider == "local" &&
          normalizeEmail cexUserLinked.email == "a@x") = true <;>
        simp [hL2, hx]
    · have e1 : normalizeEmail cexUserLinked.email = "a@x" := by decide
      have p1 : (cexUserLinked.provider == "local") = true := by decide
      have hbeq : ("a@x" == e) = false :=
        beq_eq_false_iff_ne.mpr (fun hh => h1 hh.symm)
      have hL1 : (cexUserLinked.provider == "local" &&
          normalizeEmail cexUserLinked.email == e) = false := by
        rw [p1, e1, hbeq, Bool.and_false]
      rw [hL1]
      by_cases h2 : (cexUserPlain.provider == "local" &&
          normalizeEmail cexUserPlain.email == e) = true <;>
        simp [hL1, h2]
  · intro hLE
    have h2 := hLE "b@x" (by decide)
    revert h2
    decide

/-- C2 witness: the amended claim at concrete inputs — a fresh OAuth upsert
into an empty store and the registration of `bob@x.com` both yield stores
satisfying the respective invariant halves. -/
theorem userUniqueness_spec_w :
    PairUnique ((upsertOauthUser "google" "g1" none none none "t0" "u9"
      { users := [], userLikes := [] }).1.users) ∧
    PairUnique ({ users := [{ baseUser "u7" with email := some "bob@x.com", displayName := some "bob", passwordHash := some "h9", createdAt := some "t" }], userLikes := [("u7", [])] } : Db).users ∧
    LocalEmailUnique ({ users := [{ baseUser "u7" with email := some "bob@x.com", displayName := some "bob", passwordHash := some "h9", createdAt := some "t" }], userLikes := [("u7", [])] } : Db).users := by
  have h1 := userUniqueness_spec.1 "google" "g1" none none none "t0" "u9"
    { users := [], userLikes := [] } (by decide)
    (by intro p pid; simp)
  have h2 := userUniqueness_spec.2 (some "bob@x.com") none (some "secret1")
    (some "secret1") "h9" "u7" "t" { users := [], userLikes := [] }
    emptySession
    { users := [{ baseUser "u7" with email := some "bob@x.com", displayName := some "bob", passwordHash := some "h9", createdAt := some "t" }], userLikes := [("u7", [])] }
    { emptySession with userId := some "u7" }
    (by decide)
  exact ⟨h1, h2.1 (by intro p pid; simp), h2.2 (by intro e he; simp)⟩
